import Mathlib

/-!
Verification of the log-shipping client `AppVitalLogShipper`
(src/services/log_shipper.js) against its specification.

Modelling decisions:
* A flat JSON value is `JVal`; a JS object is an association list `JObj`
  with JS-literal spread semantics (`setField` overwrites an existing key
  in place, otherwise appends — last write wins, as in `{...a, ...b}`).
* The shipper instance is the structure `AppVitalLogShipper`; the
  `flushTimer` handle is modelled by the boolean `flushTimerActive`
  (true iff the interval is scheduled and not yet cleared).
* `new Date().toISOString()` is nondeterministic, so each `log` call takes
  the generated timestamp string as an explicit argument `now`.
* Methods are state transformers `State → State × List Request`, where the
  `List Request` records the outbound HTTP POSTs issued during the call
  (axios.post is invoked synchronously inside `flush`, before the `await`
  suspends, so the request payload is fixed when `flush` is entered).
* The asynchronous resolution of the POST is the separate step
  `flushAwait`: the `try/catch` around `await axios.post` only writes a
  diagnostic line on failure and never touches the buffer.
-/

inductive JVal where
  | str : String → JVal
  | num : Int → JVal
  | bool : Bool → JVal
  | null : JVal
deriving DecidableEq, Repr

/-- A JS object as an ordered association list of fields. -/
abbrev JObj := List (String × JVal)

/-- Writing field `k := v` into a JS object: overwrite in place if the key
exists, otherwise append (the semantics of a key occurring later in an
object literal / spread). -/
def setField : JObj → String → JVal → JObj
  | [], k, v => [(k, v)]
  | (k', v') :: rest, k, v =>
    if k' = k then (k', v) :: rest else (k', v') :: setField rest k v

/-- `{ ...base, ...extra }`: spread the fields of `extra` on top of `base`. -/
def spreadInto (base : JObj) (extra : JObj) : JObj :=
  extra.foldl (fun acc kv => setField acc kv.1 kv.2) base

/-- Property lookup on a JS object (first occurrence of the key). -/
def getField : JObj → String → Option JVal
  | [], _ => none
  | (k', v) :: rest, k => if k' = k then some v else getField rest k

/-- Whether the object has the given key. -/
def hasField (o : JObj) (k : String) : Bool :=
  (getField o k).isSome

/-- An outbound HTTP POST recorded when `flush` runs on a non-empty buffer. -/
structure Request where
  url : String
  logs : List JObj
deriving DecidableEq, Repr

/-- The state of one `AppVitalLogShipper` instance. -/
structure AppVitalLogShipper where
  apiUrl : String
  serviceName : String
  batchSize : Nat
  flushInterval : Nat
  logBuffer : List JObj
  flushTimerActive : Bool
  isRunning : Bool
deriving DecidableEq, Repr

/-- The constructor's `options` argument: each recognized key may be absent
(`none`) or explicitly supplied. -/
structure Options where
  apiUrl : Option String
  serviceName : Option String
  batchSize : Option Nat
  flushInterval : Option Nat
deriving DecidableEq, Repr

/-- JS `x || d` for an optional string option: `""` is falsy. -/
def jsOrStr (v : Option String) (d : String) : String :=
  match v with
  | none => d
  | some s => if s = "" then d else s

/-- JS `x || d` for an optional numeric option: `0` is falsy. -/
def jsOrNat (v : Option Nat) (d : Nat) : Nat :=
  match v with
  | none => d
  | some n => if n = 0 then d else n

/-- JS `level.toUpperCase()` (ASCII range, as used for the level names). -/
def jsToUpperCase (s : String) : String :=
  ⟨s.data.map Char.toUpper⟩

namespace AppVitalLogShipper

/-- The constructor: `||`-defaulting of the four options, empty buffer,
`isRunning = true`, and `startFlushTimer()` schedules the interval. -/
def mk_ (options : Options) : AppVitalLogShipper :=
  { apiUrl := jsOrStr options.apiUrl "http://localhost:8000"
    serviceName := jsOrStr options.serviceName "unknown_service"
    batchSize := jsOrNat options.batchSize 10
    flushInterval := jsOrNat options.flushInterval 5000
    logBuffer := []
    flushTimerActive := true
    isRunning := true }

/-- The URL the batch is POSTed to. -/
def ingestUrl (s : AppVitalLogShipper) : String :=
  s.apiUrl ++ "/api/ingest_log"

/-- The log entry built at the top of `log`: the four reserved fields with
the metadata spread on top. -/
def mkLogEntry (serviceName now level message : String) (metadata : JObj) : JObj :=
  spreadInto
    [("timestamp", .str now),
     ("level", .str (jsToUpperCase level)),
     ("service", .str serviceName),
     ("message", .str message)]
    metadata

/-- `flush()`: early return on an empty buffer; otherwise snapshot the
buffer, reset it to `[]`, and POST `{ logs: snapshot }`. -/
def flush (s : AppVitalLogShipper) : AppVitalLogShipper × List Request :=
  if s.logBuffer.isEmpty then (s, [])
  else ({ s with logBuffer := [] }, [{ url := s.ingestUrl, logs := s.logBuffer }])

/-- `log(level, message, metadata)`: build the entry, push it, and flush if
the buffer has reached `batchSize` (fire-and-forget). -/
def log (now level message : String) (metadata : JObj) (s : AppVitalLogShipper) :
    AppVitalLogShipper × List Request :=
  let entry := mkLogEntry s.serviceName now level message metadata
  let s1 := { s with logBuffer := s.logBuffer ++ [entry] }
  if s1.batchSize ≤ s1.logBuffer.length then flush s1 else (s1, [])

def info (now message : String) (metadata : JObj) (s : AppVitalLogShipper) :
    AppVitalLogShipper × List Request :=
  log now "info" message metadata s

def warn (now message : String) (metadata : JObj) (s : AppVitalLogShipper) :
    AppVitalLogShipper × List Request :=
  log now "warn" message metadata s

def error (now message : String) (metadata : JObj) (s : AppVitalLogShipper) :
    AppVitalLogShipper × List Request :=
  log now "error" message metadata s

def debug (now message : String) (metadata : JObj) (s : AppVitalLogShipper) :
    AppVitalLogShipper × List Request :=
  log now "debug" message metadata s

/-- `logServiceRequest`: an info-level log with the standardized
cross-service correlation metadata shape. -/
def logServiceRequest (now requestingService targetService requestId : String)
    (additionalData : JObj) (s : AppVitalLogShipper) :
    AppVitalLogShipper × List Request :=
  info now "Service request received"
    (spreadInto
      [("requesting_service", .str requestingService),
       ("target_service", .str targetService),
       ("request_id", .str requestId)]
      additionalData)
    s

/-- One firing of the interval scheduled by `startFlushTimer`: calls
`flush()` if the interval has not been cleared. -/
def timerTick (s : AppVitalLogShipper) : AppVitalLogShipper × List Request :=
  if s.flushTimerActive then flush s else (s, [])

/-- `stop()`: clear `isRunning`, cancel the interval if scheduled, and
issue one final flush. -/
def stop (s : AppVitalLogShipper) : AppVitalLogShipper × List Request :=
  let s1 := { s with isRunning := false }
  let s2 := if s1.flushTimerActive then { s1 with flushTimerActive := false } else s1
  flush s2

/-- The outcome of the awaited `axios.post`: resolves, or rejects with an
error message (network failure or non-2xx status). -/
inductive Transport where
  | success : Transport
  | failure : String → Transport
deriving DecidableEq, Repr

/-- The continuation of `flush` after `await axios.post` settles: the
`catch` block prints one diagnostic line on failure and leaves the shipper
state untouched (the requeue is commented out in the source). Returns the
resulting state and the lines written to the diagnostic stream. -/
def flushAwait (t : Transport) (s : AppVitalLogShipper) :
    AppVitalLogShipper × List String :=
  match t with
  | .success => (s, [])
  | .failure msg => (s, ["Failed to send logs to AppVital: " ++ msg])

/-- A sequence of `log` calls, accumulating the issued requests. -/
def logMany : List (String × String × String × JObj) → AppVitalLogShipper →
    AppVitalLogShipper × List Request
  | [], s => (s, [])
  | (now, level, message, metadata) :: cs, s =>
    let r := log now level message metadata s
    let r' := logMany cs r.1
    (r'.1, r.2 ++ r'.2)

/-- The entry a call tuple produces in state `s`. -/
def entryOf (s : AppVitalLogShipper) (c : String × String × String × JObj) : JObj :=
  mkLogEntry s.serviceName c.1 c.2.1 c.2.2.1 c.2.2.2

/-! ### Concrete states and inputs used to exercise the theorems -/

/-- A freshly constructed shipper with `batchSize = 2`. -/
def sample2 : AppVitalLogShipper :=
  { apiUrl := "http://localhost:8000"
    serviceName := "order_service"
    batchSize := 2
    flushInterval := 5000
    logBuffer := []
    flushTimerActive := true
    isRunning := true }

/-- A concrete entry as `log` would build it. -/
def sampleEntry : JObj :=
  mkLogEntry "order_service" "2026-01-01T00:00:00.000Z" "info" "hello" []

/-- A shipper with one pending entry and `batchSize = 3`. -/
def sampleBuf : AppVitalLogShipper :=
  { apiUrl := "http://localhost:8000"
    serviceName := "order_service"
    batchSize := 3
    flushInterval := 5000
    logBuffer := [sampleEntry]
    flushTimerActive := true
    isRunning := true }

/-- A stopped shipper with an empty buffer. -/
def sampleStopped : AppVitalLogShipper :=
  { apiUrl := "http://localhost:8000"
    serviceName := "order_service"
    batchSize := 2
    flushInterval := 5000
    logBuffer := []
    flushTimerActive := false
    isRunning := false }

/-- A stopped shipper one entry short of the batch-size threshold. -/
def sampleStoppedFull : AppVitalLogShipper :=
  { apiUrl := "http://localhost:8000"
    serviceName := "order_service"
    batchSize := 2
    flushInterval := 5000
    logBuffer := [sampleEntry]
    flushTimerActive := false
    isRunning := false }

/-- Two concrete `log` calls. -/
def sampleCalls2 : List (String × String × String × JObj) :=
  [("2026-01-01T00:00:00.000Z", "info", "hello", []),
   ("2026-01-01T00:00:01.000Z", "warn", "slow", [("ms", JVal.num 950)])]

/-- One concrete `log` call. -/
def sampleCall1 : List (String × String × String × JObj) :=
  [("2026-01-01T00:00:02.000Z", "debug", "tick", [])]

end AppVitalLogShipper

/-! ### Helper lemmas: field lookup under spread -/

lemma getField_setField_self (o : JObj) (k : String) (v : JVal) :
    getField (setField o k v) k = some v := by
  induction o with
  | nil => simp [setField, getField]
  | cons kv rest ih =>
    obtain ⟨k', v'⟩ := kv
    by_cases h : k' = k
    · simp [setField, getField, h]
    · simp [setField, getField, h, ih]

lemma getField_setField_ne (o : JObj) (k k' : String) (v : JVal) (h : k' ≠ k) :
    getField (setField o k v) k' = getField o k' := by
  induction o with
  | nil => simp [setField, getField, Ne.symm h]
  | cons kv rest ih =>
    obtain ⟨a, w⟩ := kv
    by_cases ha : a = k
    · subst ha
      simp [setField, getField, Ne.symm h]
    · simp [setField, getField, ha, ih]

lemma getField_eq_none_of_not_mem (o : JObj) (k : String)
    (h : k ∉ o.map Prod.fst) : getField o k = none := by
  induction o with
  | nil => rfl
  | cons kv rest ih =>
    obtain ⟨a, w⟩ := kv
    simp only [List.map_cons, List.mem_cons] at h
    push_neg at h
    simp [getField, Ne.symm h.1, ih h.2]

lemma spreadInto_cons (base : JObj) (kv : String × JVal) (rest : JObj) :
    spreadInto base (kv :: rest) = spreadInto (setField base kv.1 kv.2) rest := rfl

lemma getField_spreadInto (base extra : JObj) (k : String)
    (hnd : (extra.map Prod.fst).Nodup) :
    getField (spreadInto base extra) k =
      match getField extra k with
      | some v => some v
      | none => getField base k := by
  induction extra generalizing base with
  | nil => simp [spreadInto, getField]
  | cons kv rest ih =>
    obtain ⟨k0, v0⟩ := kv
    simp only [List.map_cons, List.nodup_cons] at hnd
    rw [spreadInto_cons]
    by_cases hk : k0 = k
    · subst hk
      have hrest : getField rest k0 = none :=
        getField_eq_none_of_not_mem rest k0 hnd.1
      rw [ih _ hnd.2, hrest, getField_setField_self]
      simp [getField]
    · rw [ih _ hnd.2, getField_setField_ne base k0 k v0 (Ne.symm hk)]
      simp [getField, hk]

lemma hasField_setField_of (o : JObj) (k k' : String) (v : JVal)
    (h : hasField o k' = true) : hasField (setField o k v) k' = true := by
  by_cases hk : k' = k
  · subst hk
    simp [hasField, getField_setField_self]
  · rw [hasField, getField_setField_ne o k k' v hk]
    exact h

lemma hasField_spreadInto (base extra : JObj) (k : String)
    (h : hasField base k = true) : hasField (spreadInto base extra) k = true := by
  induction extra generalizing base with
  | nil => simpa [spreadInto] using h
  | cons kv rest ih =>
    rw [spreadInto_cons]
    exact ih _ (hasField_setField_of base kv.1 k kv.2 h)

namespace AppVitalLogShipper

/-! ### Helper lemmas: flush and log dynamics -/

lemma flush_of_empty (s : AppVitalLogShipper) (h : s.logBuffer = []) :
    flush s = (s, []) := by
  simp [flush, h]

lemma flush_of_ne (s : AppVitalLogShipper) (h : s.logBuffer ≠ []) :
    flush s = ({ s with logBuffer := [] },
               [{ url := s.ingestUrl, logs := s.logBuffer }]) := by
  simp [flush, h]

lemma log_below (now level message : String) (md : JObj) (s : AppVitalLogShipper)
    (h : s.logBuffer.length + 1 < s.batchSize) :
    log now level message md s =
      ({ s with logBuffer :=
          s.logBuffer ++ [mkLogEntry s.serviceName now level message md] }, []) := by
  simp only [log]
  split
  · next hcond =>
      exfalso
      simp only [List.length_append, List.length_cons, List.length_nil] at hcond
      omega
  · rfl

lemma log_trigger (now level message : String) (md : JObj) (s : AppVitalLogShipper)
    (h : s.batchSize ≤ s.logBuffer.length + 1) :
    log now level message md s =
      ({ s with logBuffer := [] },
       [{ url := s.ingestUrl,
          logs := s.logBuffer ++ [mkLogEntry s.serviceName now level message md] }]) := by
  simp only [log]
  split
  · exact flush_of_ne _ (by simp)
  · next hcond =>
      exfalso
      simp only [List.length_append, List.length_cons, List.length_nil] at hcond
      omega

lemma logMany_nil (s : AppVitalLogShipper) : logMany [] s = (s, []) := rfl

lemma logMany_cons (c : String × String × String × JObj)
    (cs : List (String × String × String × JObj)) (s : AppVitalLogShipper) :
    logMany (c :: cs) s =
      ((logMany cs (log c.1 c.2.1 c.2.2.1 c.2.2.2 s).1).1,
       (log c.1 c.2.1 c.2.2.1 c.2.2.2 s).2 ++
         (logMany cs (log c.1 c.2.1 c.2.2.1 c.2.2.2 s).1).2) := by
  obtain ⟨now, level, message, md⟩ := c
  rfl

lemma logMany_below (calls : List (String × String × String × JObj))
    (s : AppVitalLogShipper)
    (h : s.logBuffer.length + calls.length < s.batchSize) :
    logMany calls s =
      ({ s with logBuffer := s.logBuffer ++ calls.map (entryOf s) }, []) := by
  induction calls generalizing s with
  | nil => simp [logMany]
  | cons c cs ih =>
    obtain ⟨now, level, message, md⟩ := c
    have h1 : s.logBuffer.length + 1 < s.batchSize := by
      simp only [List.length_cons] at h
      omega
    rw [logMany_cons, log_below now level message md s h1]
    have h2 : (({ s with logBuffer :=
        s.logBuffer ++ [mkLogEntry s.serviceName now level message md] } :
          AppVitalLogShipper), ([] : List Request)).1.logBuffer.length + cs.length <
        (({ s with logBuffer :=
          s.logBuffer ++ [mkLogEntry s.serviceName now level message md] } :
            AppVitalLogShipper), ([] : List Request)).1.batchSize := by
      simp only [List.length_append, List.length_cons, List.length_nil]
      simp only [List.length_cons] at h
      omega
    rw [ih _ h2]
    simp only [List.map_cons, List.append_assoc, List.singleton_append,
      List.append_nil]
    rfl

lemma logMany_fill (calls : List (String × String × String × JObj))
    (s : AppVitalLogShipper)
    (hne : calls ≠ [])
    (hlen : s.logBuffer.length + calls.length = s.batchSize) :
    logMany calls s =
      ({ s with logBuffer := [] },
       [{ url := s.ingestUrl, logs := s.logBuffer ++ calls.map (entryOf s) }]) := by
  induction calls generalizing s with
  | nil => exact absurd rfl hne
  | cons c cs ih =>
    obtain ⟨now, level, message, md⟩ := c
    by_cases hcs : cs = []
    · subst hcs
      have h1 : s.batchSize ≤ s.logBuffer.length + 1 := by
        simp only [List.length_cons, List.length_nil] at hlen
        omega
      rw [logMany_cons, log_trigger now level message md s h1]
      simp only [logMany_nil, List.map_cons, List.map_nil, List.append_nil]
      rfl
    · have h1 : s.logBuffer.length + 1 < s.batchSize := by
        have : 0 < cs.length := List.length_pos.mpr hcs
        simp only [List.length_cons] at hlen
        omega
      rw [logMany_cons, log_below now level message md s h1]
      have h2 : (({ s with logBuffer :=
          s.logBuffer ++ [mkLogEntry s.serviceName now level message md] } :
            AppVitalLogShipper), ([] : List Request)).1.logBuffer.length + cs.length =
          (({ s with logBuffer :=
            s.logBuffer ++ [mkLogEntry s.serviceName now level message md] } :
              AppVitalLogShipper), ([] : List Request)).1.batchSize := by
        simp only [List.length_append, List.length_cons, List.length_nil]
        simp only [List.length_cons] at hlen
        omega
      rw [ih _ hcs h2]
      simp only [List.map_cons, List.append_assoc, List.singleton_append,
        List.append_nil]
      rfl

/-! ### Helper lemmas: the configuration fields are never mutated -/

/-- The four construction-time configuration fields. -/
def configOf (s : AppVitalLogShipper) : String × String × Nat × Nat :=
  (s.apiUrl, s.serviceName, s.batchSize, s.flushInterval)

lemma flush_config (s : AppVitalLogShipper) : configOf (flush s).1 = configOf s := by
  unfold flush
  split <;> rfl

lemma log_config (now level message : String) (md : JObj) (s : AppVitalLogShipper) :
    configOf (log now level message md s).1 = configOf s := by
  simp only [log]
  split
  · exact flush_config _
  · rfl

lemma timerTick_config (s : AppVitalLogShipper) :
    configOf (timerTick s).1 = configOf s := by
  unfold timerTick
  split
  · exact flush_config s
  · rfl

lemma stop_config (s : AppVitalLogShipper) : configOf (stop s).1 = configOf s := by
  simp only [stop]
  split <;> exact flush_config _

/-! ### Claim theorems -/

/-- C1: with `batchSize = N` and an empty buffer, a run of exactly `N`
`log()` calls (no intervening `flush()`, no timer firing) issues exactly
one POST whose payload is exactly the `N` constructed entries in logging
order, leaves the buffer empty when the `N`-th call returns, and after
each call of the run the buffer holds fewer than `N` entries. -/
theorem batch_size_trigger (s : AppVitalLogShipper)
    (calls : List (String × String × String × JObj))
    (hempty : s.logBuffer = []) (hpos : 0 < s.batchSize)
    (hlen : calls.length = s.batchSize) :
    logMany calls s =
      ({ s with logBuffer := [] },
       [{ url := s.ingestUrl, logs := calls.map (entryOf s) }])
    ∧ ∀ i, i ≤ calls.length →
        (logMany (calls.take i) s).1.logBuffer.length < s.batchSize := by
  have hne : calls ≠ [] := by
    intro hc
    rw [hc] at hlen
    simp only [List.length_nil] at hlen
    omega
  constructor
  · have hfill := logMany_fill calls s hne (by rw [hempty]; simpa using hlen)
    rw [hfill, hempty]
    simp
  · intro i hi
    rcases Nat.lt_or_ge i calls.length with hilt | hige
    · have hbound : s.logBuffer.length + (calls.take i).length < s.batchSize := by
        rw [hempty]
        simp only [List.length_nil, List.length_take, Nat.zero_add]
        omega
      rw [logMany_below (calls.take i) s hbound]
      simp only [List.length_append, List.length_map, List.length_take, hempty,
        List.length_nil, Nat.zero_add]
      omega
    · have hieq : i = calls.length := le_antisymm hi hige
      subst hieq
      rw [List.take_length]
      rw [logMany_fill calls s hne (by rw [hempty]; simpa using hlen)]
      simpa using hpos

/-- Witness for C1: a `batchSize = 2` shipper receiving two concrete calls
issues the single two-entry POST, and the buffer stays below the threshold
after each call. -/
theorem batch_size_trigger_witness :
    logMany sampleCalls2 sample2 =
      ({ sample2 with logBuffer := [] },
       [{ url := sample2.ingestUrl, logs := sampleCalls2.map (entryOf sample2) }])
    ∧ (logMany (sampleCalls2.take 1) sample2).1.logBuffer.length < sample2.batchSize :=
  ⟨(batch_size_trigger sample2 sampleCalls2 rfl (by decide) rfl).1,
   (batch_size_trigger sample2 sampleCalls2 rfl (by decide) rfl).2 1 (by decide)⟩

/-- C2: `flush` snapshots the buffer and resets it to empty before the
network call: the in-flight POST carries exactly the pre-flush buffer,
every entry logged after the snapshot stays in the live buffer and is the
exact payload of the next flush (never of the in-flight one), and the two
payloads together are exactly the old entries followed by the new ones —
nothing lost, nothing duplicated. -/
theorem flush_snapshot_isolation (s : AppVitalLogShipper)
    (calls : List (String × String × String × JObj))
    (hne : s.logBuffer ≠ []) (hcne : calls ≠ [])
    (hlen : calls.length < s.batchSize) :
    flush s = ({ s with logBuffer := [] },
               [{ url := s.ingestUrl, logs := s.logBuffer }])
    ∧ logMany calls (flush s).1 =
        ({ s with logBuffer := calls.map (entryOf s) }, [])
    ∧ flush (logMany calls (flush s).1).1 =
        ({ s with logBuffer := [] },
         [{ url := s.ingestUrl, logs := calls.map (entryOf s) }])
    ∧ (flush s).2.map Request.logs ++
        (flush (logMany calls (flush s).1).1).2.map Request.logs =
      [s.logBuffer, calls.map (entryOf s)] := by
  have h1 : flush s = ({ s with logBuffer := [] },
      [{ url := s.ingestUrl, logs := s.logBuffer }]) := flush_of_ne s hne
  have h2 : logMany calls (flush s).1 =
      ({ s with logBuffer := calls.map (entryOf s) }, []) := by
    rw [h1]
    have hbound : (({ s with logBuffer := [] } :
        AppVitalLogShipper)).logBuffer.length + calls.length <
        (({ s with logBuffer := [] } : AppVitalLogShipper)).batchSize := by
      simpa using hlen
    rw [logMany_below calls _ hbound]
    rfl
  have h3 : flush (logMany calls (flush s).1).1 =
      ({ s with logBuffer := [] },
       [{ url := s.ingestUrl, logs := calls.map (entryOf s) }]) := by
    rw [h2]
    exact flush_of_ne _ (by simpa using hcne)
  refine ⟨h1, h2, h3, ?_⟩
  rw [h3, h1]
  rfl

/-- Witness for C2: a shipper with one pending entry, one call arriving
while the first POST is in flight. -/
theorem flush_snapshot_isolation_witness :
    flush sampleBuf = ({ sampleBuf with logBuffer := [] },
        [{ url := sampleBuf.ingestUrl, logs := sampleBuf.logBuffer }])
    ∧ logMany sampleCall1 (flush sampleBuf).1 =
        ({ sampleBuf with logBuffer := sampleCall1.map (entryOf sampleBuf) }, [])
    ∧ flush (logMany sampleCall1 (flush sampleBuf).1).1 =
        ({ sampleBuf with logBuffer := [] },
         [{ url := sampleBuf.ingestUrl, logs := sampleCall1.map (entryOf sampleBuf) }])
    ∧ (flush sampleBuf).2.map Request.logs ++
        (flush (logMany sampleCall1 (flush sampleBuf).1).1).2.map Request.logs =
      [sampleBuf.logBuffer, sampleCall1.map (entryOf sampleBuf)] :=
  flush_snapshot_isolation sampleBuf sampleCall1 (by decide) (by decide) (by decide)

/-- C3: `log` stores the merge of the generated reserved fields with the
metadata spread on top: looking up any key in the stored entry yields the
metadata value when the key occurs in the metadata and the reserved value
otherwise (so a metadata key named `timestamp`, `level`, `service` or
`message` overwrites the reserved field); in particular
`log("error", "Database failed", {error: "timeout", userId: "42"})` stores
exactly the claimed flat object, and below the threshold the entry is
appended to the buffer. -/
theorem log_metadata_merge :
    (∀ (serviceName now level message k : String) (md : JObj),
        (md.map Prod.fst).Nodup →
        getField (mkLogEntry serviceName now level message md) k =
          match getField md k with
          | some v => some v
          | none =>
            getField
              [("timestamp", JVal.str now),
               ("level", JVal.str (jsToUpperCase level)),
               ("service", JVal.str serviceName),
               ("message", JVal.str message)] k)
    ∧ (∀ serviceName now : String,
        mkLogEntry serviceName now "error" "Database failed"
            [("error", JVal.str "timeout"), ("userId", JVal.str "42")] =
          [("timestamp", JVal.str now), ("level", JVal.str "ERROR"),
           ("service", JVal.str serviceName),
           ("message", JVal.str "Database failed"),
           ("error", JVal.str "timeout"), ("userId", JVal.str "42")])
    ∧ (∀ (now level message : String) (md : JObj) (s : AppVitalLogShipper),
        s.logBuffer.length + 1 < s.batchSize →
        (log now level message md s).1.logBuffer =
          s.logBuffer ++ [mkLogEntry s.serviceName now level message md]) := by
  refine ⟨?_, ?_, ?_⟩
  · intro serviceName now level message k md hnd
    exact getField_spreadInto _ md k hnd
  · intro serviceName now
    rfl
  · intro now level message md s h
    rw [log_below now level message md s h]

/-- Witness for C3: the literal example, a colliding `message` metadata
key, and the append into a concrete below-threshold shipper. -/
theorem log_metadata_merge_witness :
    mkLogEntry "order_service" "2026-01-01T00:00:00.000Z" "error" "Database failed"
        [("error", JVal.str "timeout"), ("userId", JVal.str "42")] =
      [("timestamp", JVal.str "2026-01-01T00:00:00.000Z"),
       ("level", JVal.str "ERROR"), ("service", JVal.str "order_service"),
       ("message", JVal.str "Database failed"),
       ("error", JVal.str "timeout"), ("userId", JVal.str "42")]
    ∧ getField (mkLogEntry "order_service" "t0" "info" "original"
        [("message", JVal.str "overwritten")]) "message" =
      some (JVal.str "overwritten")
    ∧ (log "2026-01-01T00:00:00.000Z" "info" "hello" [] sampleBuf).1.logBuffer =
        sampleBuf.logBuffer ++
          [mkLogEntry "order_service" "2026-01-01T00:00:00.000Z" "info" "hello" []] :=
  ⟨log_metadata_merge.2.1 "order_service" "2026-01-01T00:00:00.000Z",
   log_metadata_merge.1 "order_service" "t0" "info" "original" "message"
     [("message", JVal.str "overwritten")] (by decide),
   log_metadata_merge.2.2 "2026-01-01T00:00:00.000Z" "info" "hello" [] sampleBuf
     (by decide)⟩

/-- C4: a transport failure is absorbed inside `flush`: the diagnostic
line is recorded, the post-`await` continuation leaves the state unchanged
for every outcome (so nothing propagates to `log` callers and the failed
batch is not requeued), the buffer is already empty when the POST settles,
the next calls append to that fresh buffer, and a subsequent successful
flush carries exactly the entries logged after the failure. -/
theorem flush_failure_isolation (s : AppVitalLogShipper) (msg : String)
    (calls : List (String × String × String × JObj))
    (hne : s.logBuffer ≠ []) (hcne : calls ≠ [])
    (hlen : calls.length < s.batchSize) :
    flushAwait (Transport.failure msg) (flush s).1 =
      ((flush s).1, ["Failed to send logs to AppVital: " ++ msg])
    ∧ (∀ t : Transport, (flushAwait t (flush s).1).1 = (flush s).1)
    ∧ (flush s).1.logBuffer = []
    ∧ logMany calls (flush s).1 =
        ({ s with logBuffer := calls.map (entryOf s) }, [])
    ∧ flush (logMany calls (flush s).1).1 =
        ({ s with logBuffer := [] },
         [{ url := s.ingestUrl, logs := calls.map (entryOf s) }]) := by
  have h1 : flush s = ({ s with logBuffer := [] },
      [{ url := s.ingestUrl, logs := s.logBuffer }]) := flush_of_ne s hne
  have h2 : logMany calls (flush s).1 =
      ({ s with logBuffer := calls.map (entryOf s) }, []) := by
    rw [h1]
    have hbound : (({ s with logBuffer := [] } :
        AppVitalLogShipper)).logBuffer.length + calls.length <
        (({ s with logBuffer := [] } : AppVitalLogShipper)).batchSize := by
      simpa using hlen
    rw [logMany_below calls _ hbound]
    rfl
  refine ⟨?_, ?_, ?_, h2, ?_⟩
  · rfl
  · intro t
    cases t <;> rfl
  · rw [h1]
  · rw [h2]
    exact flush_of_ne _ (by simpa using hcne)

/-- Witness for C4: one pending entry, a failing POST, then one new call
and a clean second flush. -/
theorem flush_failure_isolation_witness :
    flushAwait (Transport.failure "timeout") (flush sampleBuf).1 =
      ((flush sampleBuf).1, ["Failed to send logs to AppVital: timeout"])
    ∧ (∀ t : Transport, (flushAwait t (flush sampleBuf).1).1 = (flush sampleBuf).1)
    ∧ (flush sampleBuf).1.logBuffer = []
    ∧ logMany sampleCall1 (flush sampleBuf).1 =
        ({ sampleBuf with logBuffer := sampleCall1.map (entryOf sampleBuf) }, [])
    ∧ flush (logMany sampleCall1 (flush sampleBuf).1).1 =
        ({ sampleBuf with logBuffer := [] },
         [{ url := sampleBuf.ingestUrl,
            logs := sampleCall1.map (entryOf sampleBuf) }]) :=
  flush_failure_isolation sampleBuf "timeout" sampleCall1
    (by decide) (by decide) (by decide)

lemma stop_eq (s : AppVitalLogShipper) :
    stop s = flush { s with isRunning := false, flushTimerActive := false } := by
  obtain ⟨a, sn, b, f, buf, ta, run⟩ := s
  simp only [stop]
  cases ta <;> rfl

/-- C5: `stop()` on a shipper with `0 < M < batchSize` pending entries
clears the running flag, cancels the interval, and issues exactly one
final flush whose payload is exactly the M pending entries; a timer firing
afterwards performs no flush. -/
theorem stop_drains (s : AppVitalLogShipper)
    (hne : s.logBuffer ≠ []) (hlt : s.logBuffer.length < s.batchSize) :
    stop s =
      ({ s with isRunning := false, flushTimerActive := false, logBuffer := [] },
       [{ url := s.ingestUrl, logs := s.logBuffer }])
    ∧ timerTick (stop s).1 = ((stop s).1, []) := by
  have h1 : stop s =
      ({ s with isRunning := false, flushTimerActive := false, logBuffer := [] },
       [{ url := s.ingestUrl, logs := s.logBuffer }]) := by
    rw [stop_eq]
    exact flush_of_ne _ hne
  refine ⟨h1, ?_⟩
  rw [h1]
  rfl

/-- Witness for C5: stopping the shipper holding one pending entry with
`batchSize = 3`. -/
theorem stop_drains_witness :
    stop sampleBuf =
      ({ sampleBuf with
          isRunning := false
          flushTimerActive := false
          logBuffer := [] },
       [{ url := sampleBuf.ingestUrl, logs := sampleBuf.logBuffer }])
    ∧ timerTick (stop sampleBuf).1 = ((stop sampleBuf).1, []) :=
  stop_drains sampleBuf (by decide) (by decide)

/-- C6: `flush` on an empty buffer is a no-op issuing no network call; on
a non-empty buffer it issues exactly one POST to `{apiUrl}/api/ingest_log`
whose body is `{logs: snapshot}`; and every entry `log` builds carries at
least the `timestamp`, `level`, `service` and `message` keys, with the
metadata keys merged at the top level. -/
theorem flush_request_shape (s : AppVitalLogShipper) :
    (s.logBuffer = [] → flush s = (s, []))
    ∧ (s.logBuffer ≠ [] →
        flush s = ({ s with logBuffer := [] },
                   [{ url := s.apiUrl ++ "/api/ingest_log",
                      logs := s.logBuffer }]))
    ∧ (∀ (serviceName now level message : String) (md : JObj),
        hasField (mkLogEntry serviceName now level message md) "timestamp" = true
        ∧ hasField (mkLogEntry serviceName now level message md) "level" = true
        ∧ hasField (mkLogEntry serviceName now level message md) "service" = true
        ∧ hasField (mkLogEntry serviceName now level message md) "message" = true) := by
  refine ⟨flush_of_empty s, flush_of_ne s, ?_⟩
  intro serviceName now level message md
  exact ⟨hasField_spreadInto _ md _ rfl, hasField_spreadInto _ md _ rfl,
         hasField_spreadInto _ md _ rfl, hasField_spreadInto _ md _ rfl⟩

/-- Witness for C6: the empty-buffer no-op, the single POST from a
one-entry buffer, and the reserved keys of a concrete entry. -/
theorem flush_request_shape_witness :
    flush sample2 = (sample2, [])
    ∧ flush sampleBuf = ({ sampleBuf with logBuffer := [] },
        [{ url := "http://localhost:8000/api/ingest_log",
           logs := [sampleEntry] }])
    ∧ hasField sampleEntry "timestamp" = true
    ∧ hasField sampleEntry "message" = true :=
  ⟨(flush_request_shape sample2).1 rfl,
   (flush_request_shape sampleBuf).2.1 (by decide),
   ((flush_request_shape sampleBuf).2.2 "order_service"
      "2026-01-01T00:00:00.000Z" "info" "hello" []).1,
   ((flush_request_shape sample2).2.2 "order_service"
      "2026-01-01T00:00:00.000Z" "info" "hello" []).2.2.2⟩

/-- C7: `info`/`warn`/`error`/`debug` produce exactly the state change and
requests of `log` at their level names, and `logServiceRequest` produces
exactly those of `log("info", "Service request received", ...)` with the
standardized correlation metadata spread with `additionalData`. -/
theorem convenience_passthrough
    (now message requestingService targetService requestId : String)
    (md additionalData : JObj) (s : AppVitalLogShipper) :
    info now message md s = log now "info" message md s
    ∧ warn now message md s = log now "warn" message md s
    ∧ error now message md s = log now "error" message md s
    ∧ debug now message md s = log now "debug" message md s
    ∧ logServiceRequest now requestingService targetService requestId
        additionalData s =
      log now "info" "Service request received"
        (spreadInto
          [("requesting_service", JVal.str requestingService),
           ("target_service", JVal.str targetService),
           ("request_id", JVal.str requestId)]
          additionalData) s :=
  ⟨rfl, rfl, rfl, rfl, rfl⟩

/-- C8: after `stop()` the flags are down but `log()` is not rejected:
below the threshold it appends the entry and issues no POST, the cancelled
timer drains nothing, and when the batch-size threshold is reached the
`log` call itself issues one final flush, after which the timer still
flushes nothing. -/
theorem post_stop_accumulation (s : AppVitalLogShipper)
    (now level message : String) (md : JObj)
    (hrun : s.isRunning = false) (htimer : s.flushTimerActive = false) :
    (s.logBuffer.length + 1 < s.batchSize →
      log now level message md s =
        ({ s with logBuffer :=
            s.logBuffer ++ [mkLogEntry s.serviceName now level message md] }, []))
    ∧ timerTick s = (s, [])
    ∧ (s.batchSize ≤ s.logBuffer.length + 1 →
        log now level message md s =
          ({ s with logBuffer := [] },
           [{ url := s.ingestUrl,
              logs := s.logBuffer ++
                [mkLogEntry s.serviceName now level message md] }])
        ∧ timerTick (log now level message md s).1 =
            ((log now level message md s).1, [])) := by
  refine ⟨log_below now level message md s, ?_, fun h => ⟨?_, ?_⟩⟩
  · simp [timerTick, htimer]
  · exact log_trigger now level message md s h
  · rw [log_trigger now level message md s h]
    simp [timerTick, htimer]

/-- Witness for C8: a stopped shipper accumulating one entry below the
threshold, and a stopped shipper reaching the threshold and flushing. -/
theorem post_stop_accumulation_witness :
    log "2026-01-01T00:00:03.000Z" "info" "late" [] sampleStopped =
      ({ sampleStopped with
          logBuffer := [mkLogEntry "order_service" "2026-01-01T00:00:03.000Z"
            "info" "late" []] }, [])
    ∧ timerTick sampleStopped = (sampleStopped, [])
    ∧ log "2026-01-01T00:00:03.000Z" "info" "late" [] sampleStoppedFull =
        ({ sampleStoppedFull with logBuffer := [] },
         [{ url := sampleStoppedFull.ingestUrl,
            logs := sampleStoppedFull.logBuffer ++
              [mkLogEntry "order_service" "2026-01-01T00:00:03.000Z"
                "info" "late" []] }]) :=
  ⟨(post_stop_accumulation sampleStopped "2026-01-01T00:00:03.000Z" "info"
      "late" [] rfl rfl).1 (by decide),
   (post_stop_accumulation sampleStopped "2026-01-01T00:00:03.000Z" "info"
      "late" [] rfl rfl).2.1,
   ((post_stop_accumulation sampleStoppedFull "2026-01-01T00:00:03.000Z" "info"
      "late" [] rfl rfl).2.2 (by decide)).1⟩

/-- C9: the constructor's `||`-defaulting replaces any falsy supplied
option by its default — `batchSize: 0` yields 10, `flushInterval: 0`
yields 5000, `serviceName: ""` yields "unknown_service", `apiUrl: ""`
yields "http://localhost:8000" — and no construction can produce a zero or
empty value for any of the four options. -/
theorem constructor_falsy_defaults :
    (mk_ { apiUrl := none, serviceName := none, batchSize := some 0,
           flushInterval := none }).batchSize = 10
    ∧ (mk_ { apiUrl := none, serviceName := none, batchSize := none,
             flushInterval := some 0 }).flushInterval = 5000
    ∧ (mk_ { apiUrl := none, serviceName := some "", batchSize := none,
             flushInterval := none }).serviceName = "unknown_service"
    ∧ (mk_ { apiUrl := some "", serviceName := none, batchSize := none,
             flushInterval := none }).apiUrl = "http://localhost:8000"
    ∧ ∀ options : Options,
        (mk_ options).batchSize ≠ 0 ∧ (mk_ options).flushInterval ≠ 0
        ∧ (mk_ options).serviceName ≠ "" ∧ (mk_ options).apiUrl ≠ "" := by
  refine ⟨rfl, rfl, rfl, rfl, ?_⟩
  intro options
  obtain ⟨u, n, b, f⟩ := options
  refine ⟨?_, ?_, ?_, ?_⟩
  · cases b with
    | none => simp [mk_, jsOrNat]
    | some x =>
      by_cases hx : x = 0 <;> simp [mk_, jsOrNat, hx]
  · cases f with
    | none => simp [mk_, jsOrNat]
    | some x =>
      by_cases hx : x = 0 <;> simp [mk_, jsOrNat, hx]
  · cases n with
    | none => simp [mk_, jsOrStr]
    | some x =>
      by_cases hx : x = "" <;> simp [mk_, jsOrStr, hx]
  · cases u with
    | none => simp [mk_, jsOrStr]
    | some x =>
      by_cases hx : x = "" <;> simp [mk_, jsOrStr, hx]

/-- C10: every operation preserves the four configuration fields `apiUrl`,
`serviceName`, `batchSize` and `flushInterval`; only the buffer, the timer
flag and the running flag are ever mutated. -/
theorem config_frame (s : AppVitalLogShipper)
    (now level message requestingService targetService requestId : String)
    (md additionalData : JObj) :
    configOf (log now level message md s).1 = configOf s
    ∧ configOf (info now message md s).1 = configOf s
    ∧ configOf (warn now message md s).1 = configOf s
    ∧ configOf (error now message md s).1 = configOf s
    ∧ configOf (debug now message md s).1 = configOf s
    ∧ configOf (logServiceRequest now requestingService targetService
        requestId additionalData s).1 = configOf s
    ∧ configOf (flush s).1 = configOf s
    ∧ configOf (stop s).1 = configOf s
    ∧ configOf (timerTick s).1 = configOf s :=
  ⟨log_config now level message md s,
   log_config now "info" message md s,
   log_config now "warn" message md s,
   log_config now "error" message md s,
   log_config now "debug" message md s,
   log_config now "info" "Service request received"
     (spreadInto
       [("requesting_service", JVal.str requestingService),
        ("target_service", JVal.str targetService),
        ("request_id", JVal.str requestId)]
       additionalData) s,
   flush_config s, stop_config s, timerTick_config s⟩

end AppVitalLogShipper
